import Mathlib

/-!
Shallow embedding of the desired-state reconciliation core of the
ibm-cert-manager-operator repository (controllers/operator/deploys.go),
together with theorems checking the natural-language specification against it.

External collaborators (the Kubernetes cluster state store, the
controller-runtime owner-reference facility) are modelled as explicit
inputs: list/delete/create/update results are passed in as values, so a
reconciliation pass is a pure function from those inputs to its outcome
and the list of write calls it issues.  Go `nil`-pointer panics and
out-of-bounds slice indexing are modelled by `Option`-valued results
(`none` = the program aborts).
-/

namespace CertManagerOp

/-! ## Data model

The fragment of `appsv1.Deployment` that `deploys.go` reads or writes.
Go pointers that the code nil-checks become `Option`; Go slices compared
through `reflect.DeepEqual` (where `nil` and empty differ) become
`Option (List _)`; slices compared only via `len` and indexing become
plain `List _`; maps become association lists. -/

/-- `k8s resource.Quantity`, fast path: an integer `value` scaled by
`10 ^ scale` (the `int64Amount` representation). -/
structure Quantity where
  value : Int
  scale : Int
  deriving DecidableEq

/-- `v1.ResourceList` restricted to the three resource names the code
compares: cpu, memory, ephemeral-storage.  A missing key is `none`. -/
structure ResourceList where
  cpu : Option Quantity
  memory : Option Quantity
  ephemeralStorage : Option Quantity
  deriving DecidableEq

/-- `v1.ResourceRequirements`. -/
structure Resources where
  limits : ResourceList
  requests : ResourceList
  deriving DecidableEq

/-- `v1.ExecAction`: the `Command` slice may be a Go `nil` slice. -/
structure ExecA where
  command : Option (List String)
  deriving DecidableEq

/-- `v1.Probe`: the `ProbeHandler.Exec` pointer may be nil (`none`). -/
structure Probe where
  exec : Option ExecA
  initialDelaySeconds : Int
  timeoutSeconds : Int
  deriving DecidableEq

/-- `v1.Capabilities`. -/
structure Capabilities where
  add : Option (List String)
  drop : Option (List String)
  deriving DecidableEq

/-- `v1.SecurityContext` (container level), the fields `equalDeploys`
compares field-by-field. -/
structure CSecCtx where
  runAsNonRoot : Option Bool
  runAsUser : Option Int
  allowPrivilegeEscalation : Option Bool
  readOnlyRootFilesystem : Option Bool
  privileged : Option Bool
  capabilities : Option Capabilities
  deriving DecidableEq

/-- `v1.PodSecurityContext`, compared wholesale by `reflect.DeepEqual`. -/
structure PodSecCtx where
  runAsNonRoot : Option Bool
  runAsUser : Option Int
  fsGroup : Option Int
  deriving DecidableEq

/-- `v1.ObjectFieldSelector`. -/
structure FieldRef where
  fieldPath : String
  deriving DecidableEq

/-- `v1.EnvVarSource`: only the `FieldRef` pointer is ever read. -/
structure EnvSource where
  fieldRef : Option FieldRef
  deriving DecidableEq

/-- `v1.EnvVar`. -/
structure EnvVar where
  name : String
  value : String
  valueFrom : Option EnvSource
  deriving DecidableEq

/-- `v1.Volume`: name plus the optional `VolumeSource.Secret.SecretName`. -/
structure Volume where
  name : String
  secret : Option String
  deriving DecidableEq

/-- `v1.VolumeMount`, compared wholesale by `reflect.DeepEqual`. -/
structure VolumeMount where
  name : String
  mountPath : String
  readOnly : Bool
  deriving DecidableEq

/-- `v1.Container`, the fields `deploys.go` reads or writes. -/
structure Container where
  name : String
  image : String
  imagePullPolicy : String
  args : Option (List String)
  livenessProbe : Option Probe
  readinessProbe : Option Probe
  securityContext : Option CSecCtx
  resources : Resources
  env : List EnvVar
  volumeMounts : List VolumeMount
  deriving DecidableEq

/-- `appsv1.Deployment`, the fields `deploys.go` reads or writes.
`Labels`/`PodLabels` are the `ObjectMeta.Labels` maps of the deployment
and of its pod template, as association lists. -/
structure Deployment where
  Name : String
  Namespace : String
  Labels : List (String × String)
  Replicas : Option Int
  PodLabels : List (String × String)
  ImagePullSecrets : Option (List String)
  ServiceAccountName : String
  PodSecurityContext : Option PodSecCtx
  Volumes : List Volume
  HostNetwork : Bool
  Containers : List Container
  deriving DecidableEq

/-- The Go zero value `appsv1.Deployment{}` (`var existingDeploy appsv1.Deployment`). -/
def defaultDeployment : Deployment :=
  { Name := "", Namespace := "", Labels := [], Replicas := none, PodLabels := [],
    ImagePullSecrets := none, ServiceAccountName := "", PodSecurityContext := none,
    Volumes := [], HostNetwork := false, Containers := [] }

/-! ## Map and string helpers -/

/-- Lookup in a `map[string]string` modelled as an association list. -/
def mapLookup (m : List (String × String)) (k : String) : Option String :=
  match m.find? (fun p => p.1 == k) with
  | some p => some p.2
  | none => none

/-- `reflect.DeepEqual` on two `map[string]string` values: extensional
key/value agreement. -/
def mapEqb (a b : List (String × String)) : Bool :=
  a.all (fun p => mapLookup b p.1 == some p.2) &&
  b.all (fun p => mapLookup a p.1 == some p.2)

/-- `p` occurs as a contiguous sublist of the second argument
(char-list core of Go `strings.Contains`). -/
def charListContains (p : List Char) : List Char → Bool
  | [] => p.isEmpty
  | c :: t => p.isPrefixOf (c :: t) || charListContains p t

/-- Go `strings.Contains s pat`. -/
def strContains (s pat : String) : Bool :=
  charListContains pat.toList s.toList

/-- Go `strings.TrimRight(s, "/")`: remove every trailing `'/'`. -/
def trimTrailingSlash (s : String) : String :=
  String.mk (List.reverse (List.dropWhile (fun c => c == '/') s.toList.reverse))

/-! ## Decimal rendering of quantities

`equalDeploys` compares quantities via `fmt.Sprint(q.AsDec())`.
`Quantity.AsDec` turns the `int64Amount` `{value, scale}` into an
`inf.Dec` with unscaled value `value` and decimal scale `-scale`;
`inf.Dec.String` prints the unscaled value with exactly `scale`
fractional digits (no trailing-zero trimming). -/

/-- Decimal digits of `n`, most significant first (`fuel ≥ n` suffices). -/
def natToDigitsAux : Nat → Nat → List Char
  | 0, _ => []
  | _ + 1, 0 => []
  | fuel + 1, n => natToDigitsAux fuel (n / 10) ++ [Char.ofNat (48 + n % 10)]

/-- Decimal string of a natural number. -/
def natToStr (n : Nat) : String :=
  if n = 0 then "0" else String.mk (natToDigitsAux (n + 1) n)

/-- Decimal string of an integer. -/
def intToStr : Int → String
  | Int.ofNat n => natToStr n
  | Int.negSucc n => "-" ++ natToStr (n + 1)

/-- `inf.Dec{unscaled := u, scale := sc}.String()`: the decimal point is
placed `sc` digits from the right; non-positive scales append zeros. -/
def decString (u : Int) (sc : Int) : String :=
  let s := intToStr u
  if sc ≤ 0 then
    if sc ≠ 0 ∧ u ≠ 0 then s ++ String.mk (List.replicate (-sc).toNat '0') else s
  else
    let negbit : Nat := if u < 0 then 1 else 0
    let scn := sc.toNat
    let lens := s.length - negbit
    let s' :=
      if lens ≤ scn then
        s.take negbit ++ String.mk (List.replicate (scn - lens + 1) '0') ++ s.drop negbit
      else s
    s'.take (s'.length - scn) ++ "." ++ s'.drop (s'.length - scn)

/-- `fmt.Sprint(q.AsDec())` for a quantity in `int64Amount` form. -/
def qDecString (q : Quantity) : String :=
  decString q.value (-q.scale)

/-- `ResourceList.Cpu()` & co. return the zero quantity when the map has
no entry for the resource name. -/
def qGet (o : Option Quantity) : Quantity :=
  o.getD ⟨0, 0⟩

/-- Modelled from the spec: the external resource-quantity parser
(`k8s.io/apimachinery` `resource.ParseQuantity`, not part of this
repository), restricted to the decimal fast path actually exercised
here: `digits[.digits][SI suffix]`, giving
`value = digits-of-num-and-denom`, `scale = suffix exponent - #denom digits`. -/
def suffixExponent : String → Option Int
  | "" => some 0
  | "m" => some (-3)
  | "k" => some 3
  | "M" => some 6
  | "G" => some 9
  | _ => none

/-- Value of a non-empty digit string. -/
def digitsToNat? (l : List Char) : Option Nat :=
  if l ≠ [] ∧ l.all Char.isDigit then
    some (l.foldl (fun a c => a * 10 + (c.toNat - 48)) 0)
  else none

/-- Modelled from the spec: `resource.ParseQuantity` (decimal fragment, see
`suffixExponent`). -/
def parseQuantity (s : String) : Option Quantity :=
  let l := s.toList
  let num := l.takeWhile Char.isDigit
  let rest := l.dropWhile Char.isDigit
  let pair : List Char × List Char :=
    match rest with
    | '.' :: r => (r.takeWhile Char.isDigit, r.dropWhile Char.isDigit)
    | _ => ([], rest)
  let denom := pair.1
  let hadPoint : Bool := match rest with | '.' :: _ => true | _ => false
  match suffixExponent (String.mk pair.2) with
  | none => none
  | some expo =>
    if hadPoint ∧ denom = [] then none
    else
      match digitsToNat? (num ++ denom) with
      | none => none
      | some v => some ⟨(v : Int), expo - denom.length⟩

/-! ## equalDeploys -/

/-- Sequencing of facet checks that may abort (`none`): a first mismatch
(`some false`) short-circuits, exactly like the Go early `return false`. -/
def seqCheck : Option Bool → Option Bool → Option Bool
  | none, _ => none
  | some false, _ => some false
  | some true, r => r

/-- Facet 11 (`Args`): Go's explicit nil handling, then length, then
element-wise `DeepEqual`. -/
def checkArgs : Option (List String) → Option (List String) → Bool
  | some fa, some sa => if fa.length ≠ sa.length then false else fa == sa
  | none, none => true
  | _, _ => false

/-- Facets 12 (probes): both non-nil compares `ProbeHandler.Exec.Command`
(dereferencing `Exec` — a nil `Exec` pointer panics, `none`), initial
delay and timeout; exactly one nil probe is a mismatch. -/
def checkProbe : Option Probe → Option Probe → Option Bool
  | some fp, some sp =>
    match fp.exec, sp.exec with
    | some fe, some se =>
      if fe.command ≠ se.command then some false
      else if fp.initialDelaySeconds ≠ sp.initialDelaySeconds then some false
      else if fp.timeoutSeconds ≠ sp.timeoutSeconds then some false
      else some true
    | _, _ => none
  | none, none => some true
  | _, _ => some false

/-- Go's per-field pointer rule: both non-nil compares pointees, both nil
passes, exactly one nil is a mismatch. -/
def nilCheckEq {α : Type} [DecidableEq α] : Option α → Option α → Bool
  | some x, some y => x == y
  | none, none => true
  | _, _ => false

/-- Facet 13 (container security context): the six sub-fields, each under
the per-field nil rule; a whole-context nil on exactly one side is a
mismatch. -/
def checkSecCtx : Option CSecCtx → Option CSecCtx → Bool
  | some f, some s =>
    nilCheckEq f.runAsNonRoot s.runAsNonRoot &&
    nilCheckEq f.runAsUser s.runAsUser &&
    nilCheckEq f.allowPrivilegeEscalation s.allowPrivilegeEscalation &&
    nilCheckEq f.readOnlyRootFilesystem s.readOnlyRootFilesystem &&
    nilCheckEq f.privileged s.privileged &&
    nilCheckEq f.capabilities s.capabilities
  | none, none => true
  | _, _ => false

/-- Facet 14 (resource quantities): the six comparisons, each on the
`AsDec` string. -/
def checkResources (f s : Resources) : Bool :=
  (qDecString (qGet f.limits.cpu) == qDecString (qGet s.limits.cpu)) &&
  (qDecString (qGet f.limits.memory) == qDecString (qGet s.limits.memory)) &&
  (qDecString (qGet f.requests.cpu) == qDecString (qGet s.requests.cpu)) &&
  (qDecString (qGet f.requests.memory) == qDecString (qGet s.requests.memory)) &&
  (qDecString (qGet f.requests.ephemeralStorage) == qDecString (qGet s.requests.ephemeralStorage)) &&
  (qDecString (qGet f.limits.ephemeralStorage) == qDecString (qGet s.limits.ephemeralStorage))

/-- Facet 15, one index of the env loop: name, literal value, then the
value-from / field-ref nil rules. -/
def checkEnvVar (f s : EnvVar) : Bool :=
  f.name == s.name && f.value == s.value &&
  (match f.valueFrom, s.valueFrom with
   | some fv, some sv =>
     match fv.fieldRef, sv.fieldRef with
     | some fr, some sr => fr.fieldPath == sr.fieldPath
     | none, none => true
     | _, _ => false
   | none, none => true
   | _, _ => false)

/-- Facet 15, the loop (caller has already checked the lengths). -/
def checkEnvs : List EnvVar → List EnvVar → Bool
  | [], [] => true
  | f :: fs, s :: ss => checkEnvVar f s && checkEnvs fs ss
  | _, _ => false

/-- Facet 7, one index of the volume loop: name, then the secret-source
nil rule. -/
def checkVolPair (f s : Volume) : Bool :=
  f.name == s.name &&
  (match f.secret, s.secret with
   | some a, some b => a == b
   | none, none => true
   | _, _ => false)

/-- Facet 7, the loop (caller has already checked the lengths). -/
def checkVols : List Volume → List Volume → Bool
  | [], [] => true
  | f :: fs, s :: ss => checkVolPair f s && checkVols fs ss
  | _, _ => false

/-- Facet 16, the volume-mount loop: per-index `DeepEqual`. -/
def checkVolMnts : List VolumeMount → List VolumeMount → Bool
  | [], [] => true
  | f :: fs, s :: ss => (f == s) && checkVolMnts fs ss
  | _, _ => false

/-- Container-level half of `equalDeploys` (everything after
`firstContainers[0]` / `secondContainers[0]` have been taken). -/
def equalContainers (fc sc : Container) : Option Bool :=
  if fc.name ≠ sc.name then some false
  else if fc.image ≠ sc.image then some false
  else if fc.imagePullPolicy ≠ sc.imagePullPolicy then some false
  else if ¬ checkArgs fc.args sc.args then some false
  else
    match checkProbe fc.livenessProbe sc.livenessProbe with
    | none => none
    | some false => some false
    | some true =>
      match checkProbe fc.readinessProbe sc.readinessProbe with
      | none => none
      | some false => some false
      | some true =>
        if ¬ checkSecCtx fc.securityContext sc.securityContext then some false
        else if ¬ checkResources fc.resources sc.resources then some false
        else if fc.env.length ≠ sc.env.length then some false
        else if ¬ checkEnvs fc.env sc.env then some false
        else if fc.volumeMounts.length ≠ sc.volumeMounts.length then some false
        else if ¬ checkVolMnts fc.volumeMounts sc.volumeMounts then some false
        else some true

/-- `equalDeploys(first, second)` from deploys.go.  `some b` is the Go
return value; `none` is a panic (indexing `Containers[0]` out of bounds,
or a nil probe `Exec` pointer dereferenced inside `equalContainers`). -/
def equalDeploys (f s : Deployment) : Option Bool :=
  if ¬ mapEqb f.Labels s.Labels then some false
  else if f.Replicas ≠ s.Replicas then some false
  else if ¬ mapEqb f.PodLabels s.PodLabels then some false
  else if f.ImagePullSecrets ≠ s.ImagePullSecrets then some false
  else if f.ServiceAccountName ≠ s.ServiceAccountName then some false
  else if f.PodSecurityContext ≠ s.PodSecurityContext then some false
  else if f.Volumes.length ≠ s.Volumes.length then some false
  else if ¬ checkVols f.Volumes s.Volumes then some false
  else if f.HostNetwork ≠ s.HostNetwork then some false
  else if f.Containers.length ≠ s.Containers.length then some false
  else
    match f.Containers.head?, s.Containers.head? with
    | some fc, some sc => equalContainers fc sc
    | _, _ => none

/-! ## Template and registry constants

Modelled from the spec: the `resources` package constants (template
content and names) are declared by the spec to be configuration data,
not engine logic ("the declarative template content itself (what image,
what default flags) — these are configuration data").  They are not part
of the source under scrutiny; representative concrete values are used,
and no theorem depends on the particular strings beyond the three
workload names being distinct. -/

/-- Modelled from the spec: default image registry (`res.ImageRegistry`). -/
def ImageRegistry : String := "quay.io/jetstack"

/-- Modelled from the spec: controller workload name constant. -/
def CertManagerControllerName : String := "cert-manager-controller"

/-- Modelled from the spec: cainjector workload name constant. -/
def CertManagerCainjectorName : String := "cert-manager-cainjector"

/-- Modelled from the spec: webhook workload name constant. -/
def CertManagerWebhookName : String := "cert-manager-webhook"

/-- Modelled from the spec: controller image name constant. -/
def ControllerImageName : String := "icp-cert-manager-controller"

/-- Modelled from the spec: ACME solver image name constant. -/
def AcmesolverImageName : String := "icp-cert-manager-acmesolver"

/-- Modelled from the spec: cainjector image name constant. -/
def CainjectorImageName : String := "icp-cert-manager-cainjector"

/-- Modelled from the spec: webhook image name constant. -/
def WebhookImageName : String := "icp-cert-manager-webhook"

/-- Modelled from the spec: controller/cainjector image version constant. -/
def ControllerImageVersion : String := "0.10.0"

/-- Modelled from the spec: webhook image version constant. -/
def WebhookImageVersion : String := "0.10.0"

/-- Modelled from the spec: the template's default value of the
cluster-resource-namespace argument (`res.ResourceNS`). -/
def ResourceNS : String := "--cluster-resource-namespace=ibm-common-services"

/-- Modelled from the spec: the template's default argument list
(`res.DefaultArgs`). -/
def DefaultArgs : List String := ["--v=2"]

/-- `res.TrueVar`. -/
def TrueVar : Bool := true

/-- `res.FalseVar`. -/
def FalseVar : Bool := false

/-- Modelled from the spec: `res.GetImageID` — "Image reference =
`registryOverride or defaultRegistry` + image name + version + optional
postfix" (the environment-variable override channel of the real helper
is outside the spec and omitted). -/
def GetImageID (registry imageName imageVersion postfixStr : String) : String :=
  registry ++ "/" ++ imageName ++ ":" ++ imageVersion ++ postfixStr

/-! ## The declarative input (CertManagerConfig CR) -/

/-- Per-component resource overrides from the CR
(`instance.Spec.CertManagerX.Resources`): a `nil` map is `none`. -/
structure CRResources where
  limits : Option ResourceList
  requests : Option ResourceList
  deriving DecidableEq

/-- `instance.Spec` fields read by `setupDeploy`.  The Go field
`ImagePostFix` is rendered `ImagePostFixStr` here. -/
structure CertManagerConfigSpec where
  ImageRegistry : String
  ImagePostFixStr : String
  ResourceNS : String
  DisableHostNetwork : Option Bool
  certManagerController : CRResources
  certManagerCAInjector : CRResources
  certManagerWebhook : CRResources
  deriving DecidableEq

/-! ## setupDeploy -/

/-- `setupDeploy(instance, deploy, ns)` from deploys.go.  `none` models
the Go panics (indexing `Containers[0]` on an empty template container
list, or dereferencing a nil `SecurityContext` in the webhook case). -/
def setupDeploy (i : CertManagerConfigSpec) (deploy : Deployment) (ns : String) :
    Option Deployment :=
  let imageRegistry :=
    if i.ImageRegistry ≠ "" then trimTrailingSlash i.ImageRegistry else ImageRegistry
  let afterSwitch : Option Deployment :=
    if deploy.Name = CertManagerControllerName then
      match deploy.Containers with
      | [] => none
      | c0 :: rest =>
        let acmesolver := "--acme-http01-solver-image=" ++
          GetImageID imageRegistry AcmesolverImageName ControllerImageVersion i.ImagePostFixStr
        let resourceNSFlag :=
          if i.ResourceNS ≠ "" then "--cluster-resource-namespace=" ++ i.ResourceNS
          else ResourceNS
        let leaderElect := "--leader-election-namespace=" ++ ns
        let c0' : Container :=
          { c0 with
            image := GetImageID imageRegistry ControllerImageName ControllerImageVersion
                       i.ImagePostFixStr,
            args := some (DefaultArgs ++ [acmesolver, resourceNSFlag, leaderElect]),
            resources :=
              { limits := i.certManagerController.limits.getD c0.resources.limits,
                requests := i.certManagerController.requests.getD c0.resources.requests } }
        some { deploy with Containers := c0' :: rest }
    else if deploy.Name = CertManagerCainjectorName then
      match deploy.Containers with
      | [] => none
      | c0 :: rest =>
        let leaderElect := "--leader-election-namespace=" ++ ns
        let c0' : Container :=
          { c0 with
            image := GetImageID imageRegistry CainjectorImageName ControllerImageVersion
                       i.ImagePostFixStr,
            args := some (DefaultArgs ++ [leaderElect]),
            resources :=
              { limits := i.certManagerCAInjector.limits.getD c0.resources.limits,
                requests := i.certManagerCAInjector.requests.getD c0.resources.requests } }
        some { deploy with Containers := c0' :: rest }
    else if deploy.Name = CertManagerWebhookName then
      match deploy.Containers with
      | [] => none
      | c0 :: rest =>
        match c0.securityContext with
        | none => none
        | some sc =>
          let c0' : Container :=
            { c0 with
              image := GetImageID imageRegistry WebhookImageName WebhookImageVersion
                         i.ImagePostFixStr,
              securityContext := some { sc with readOnlyRootFilesystem := some TrueVar },
              resources :=
                { limits := i.certManagerWebhook.limits.getD c0.resources.limits,
                  requests := i.certManagerWebhook.requests.getD c0.resources.requests } }
          some { deploy with
                 Containers := c0' :: rest,
                 HostNetwork := match i.DisableHostNetwork with
                   | none => FalseVar
                   | some d => !d }
    else some deploy
  afterSwitch.map (fun d => { d with Namespace := ns })

/-! ## removeDeploy -/

/-- Failures of the cluster store's delete call, with the distinguishable
not-found condition (`k8serrors.IsNotFound`). -/
inductive DeleteError
  | notFound (msg : String)
  | other (msg : String)
  deriving DecidableEq

/-- `k8serrors.IsNotFound`. -/
def isNotFound : DeleteError → Bool
  | DeleteError.notFound _ => true
  | DeleteError.other _ => false

/-- `removeDeploy(client, name, namespace)`: the delete call is the
oracle `deleteFn` (namespace first, then name, as in
`Deployments(namespace).Delete(name)`); the Go return value is `none`
for `nil` and `some e` for an error. -/
def removeDeploy (deleteFn : String → String → Except DeleteError Unit)
    (name nspace : String) : Option DeleteError :=
  match deleteFn nspace name with
  | Except.ok _ => none
  | Except.error err => if ¬ isNotFound err then some err else none

/-! ## deployFinder -/

/-- Dedup key `deploy.Name + "/" + deploy.Namespace`. -/
def dedupKey (d : Deployment) : String :=
  d.Name ++ "/" ++ d.Namespace

/-- `_, ok := allDeploysMap[k]`. -/
def keyMem (k : String) (m : List (String × Deployment)) : Bool :=
  m.any (fun p => p.1 == k)

/-- `if _, ok := allDeploysMap[k]; !ok { allDeploysMap[k] = deploy }` —
the Go map as an insertion-ordered association list. -/
def addIfAbsent (m : List (String × Deployment)) (d : Deployment) :
    List (String × Deployment) :=
  if keyMem (dedupKey d) m then m else m ++ [(dedupKey d, d)]

/-- Second discovery pass: every listed deployment has
`Containers[0].Image` read (a zero-container deployment panics, `none`);
matches by image substring are added to the map if their key is new. -/
def imagePass (imageName : String) :
    List (String × Deployment) → List Deployment → Option (List (String × Deployment))
  | m, [] => some m
  | m, d :: ds =>
    match d.Containers.head? with
    | none => none
    | some c0 =>
      imagePass imageName (if strContains c0.image imageName then addIfAbsent m d else m) ds

/-- `deployFinder(client, labels, name)`: the two cluster list calls are
passed in as `Except`-valued oracles (a failed query is logged and its
pass skipped).  Returns the deduplicated candidates (map values in
insertion order); `none` is the image-pass panic. -/
def deployFinder (labelQuery allQuery : Except String (List Deployment))
    (imageName : String) : Option (List Deployment) :=
  let m1 : List (String × Deployment) :=
    match labelQuery with
    | Except.error _ => []
    | Except.ok items => items.foldl addIfAbsent []
  match allQuery with
  | Except.error _ => some (m1.map Prod.snd)
  | Except.ok items => (imagePass imageName m1 items).map (fun m => m.map Prod.snd)

/-! ## deployLogic -/

/-- A write call issued to the cluster state store. -/
inductive WriteCall
  | create (d : Deployment)
  | update (d : Deployment)
  deriving DecidableEq

/-- Prefix of the conflict message (`fmt.Sprintf` in deployLogic). -/
def conflictPre (name : String) : String :=
  "The service " ++ name ++ " is already deployed as "

/-- Suffix of the conflict message. -/
def conflictPost (name : String) : String :=
  ". Please remove it if you want this version of " ++ name ++ " to be deployed."

/-- The full conflict error message, naming the offender as
`namespace/name`. -/
def conflictMsg (name : String) (d : Deployment) : String :=
  conflictPre name ++ (d.Namespace ++ "/" ++ d.Name) ++ conflictPost name

/-- The candidate loop of `deployLogic`: any candidate whose identity is
not `(name, ns)` returns the conflict error at once; a matching
candidate flips `create` to `false` and is remembered. -/
def scanSimilar (name ns : String) :
    Bool × Deployment → List Deployment → Except String (Bool × Deployment)
  | acc, [] => Except.ok acc
  | _, d :: ds =>
    if ¬ (d.Name = name ∧ d.Namespace = ns) then Except.error (conflictMsg name d)
    else scanSimilar name ns (false, d) ds

/-- `deployLogic` after discovery and spec building: `similarDeploys` is
the candidate set from `deployFinder` and `deployment` the desired spec
from `setupDeploy`.  `setRefErr` is the outcome of
`controllerutil.SetControllerReference` (external collaborator);
`createErr`/`updateErr` are the outcomes of the write calls.  Returns
the pass's Go error (as `Except`) together with the write calls issued,
or `none` when `equalDeploys` panics. -/
def deployLogicCore (setRefErr createErr updateErr : Option String)
    (similarDeploys : List Deployment) (deployment : Deployment) (name ns : String) :
    Option (Except String Unit × List WriteCall) :=
  match scanSimilar name ns (true, defaultDeployment) similarDeploys with
  | Except.error e => some (Except.error e, [])
  | Except.ok (create, existingDeploy) =>
    match setRefErr with
    | some e => some (Except.error e, [])
    | none =>
      if create then
        some (match createErr with
              | some e => Except.error e
              | none => Except.ok (), [WriteCall.create deployment])
      else
        match equalDeploys deployment existingDeploy with
        | none => none
        | some eq =>
          if ¬ eq then
            some (match updateErr with
                  | some e => Except.error e
                  | none => Except.ok (), [WriteCall.update deployment])
          else some (Except.ok (), [])

/-! ## Concrete example inputs (used by counterexamples and witnesses) -/

/-- A minimal single container. -/
def baseContainerEx : Container :=
  { name := "cert-manager", image := "quay.io/jetstack/icp-cert-manager-controller:0.10.0",
    imagePullPolicy := "", args := none, livenessProbe := none, readinessProbe := none,
    securityContext := none,
    resources := ⟨⟨none, none, none⟩, ⟨none, none, none⟩⟩, env := [], volumeMounts := [] }

/-- A deployment whose only varying field is the cpu limit quantity. -/
def deployWithCpuLimit (q : Quantity) : Deployment :=
  { defaultDeployment with
    Name := "cert-manager-controller",
    Containers := [{ baseContainerEx with
                     resources := ⟨⟨some q, none, none⟩, ⟨none, none, none⟩⟩ }] }

/-- A deployment with two (identical) containers. -/
def twoContainerDeploy : Deployment :=
  { defaultDeployment with Containers := [baseContainerEx, baseContainerEx] }

/-- A CR whose optional fields are all unset. -/
def emptyCR : CertManagerConfigSpec :=
  { ImageRegistry := "", ImagePostFixStr := "", ResourceNS := "", DisableHostNetwork := none,
    certManagerController := ⟨none, none⟩, certManagerCAInjector := ⟨none, none⟩,
    certManagerWebhook := ⟨none, none⟩ }

/-- A concrete controller-type template. -/
def controllerTemplateEx : Deployment :=
  { defaultDeployment with Name := CertManagerControllerName, Containers := [baseContainerEx] }

/-- A concrete webhook-type template (with a container security context,
as the real template has). -/
def webhookTemplateEx : Deployment :=
  { defaultDeployment with
    Name := CertManagerWebhookName,
    Containers := [{ baseContainerEx with
                     securityContext := some ⟨none, none, none, none, none, none⟩ }] }

/-- A deployment under a foreign identity. -/
def foreignDeployEx : Deployment :=
  { defaultDeployment with
    Name := "other", Namespace := "elsewhere", Containers := [baseContainerEx] }

/-- A same-identity candidate equal to the desired spec. -/
def sameDeployEx : Deployment :=
  { defaultDeployment with
    Name := "cert-manager-controller", Namespace := "certns",
    Containers := [baseContainerEx] }

/-- The spec's words for the registry trim (claim C7): remove exactly one
trailing path separator, for comparison against the source's
`trimTrailingSlash`. -/
def trimOneTrailingSlashSpec (s : String) : String :=
  match s.toList.reverse with
  | '/' :: rest => String.mk rest.reverse
  | _ => s

/-! ## Helper lemmas -/

/-- Peeling one mismatch check off an early-return chain. -/
theorem ite_some_false_none {c : Prop} [Decidable c] {e : Option Bool}
    (h : (if c then some false else e) = none) : e = none := by
  by_cases hc : c
  · rw [if_pos hc] at h; exact Option.noConfusion h
  · rwa [if_neg hc] at h

/-- The candidate loop errors with the conflict message of some foreign
candidate as soon as the list contains one, whatever the accumulator. -/
theorem scanSimilar_conflict (name ns : String) :
    ∀ (ds : List Deployment) (acc : Bool × Deployment),
      (∃ d ∈ ds, ¬ (d.Name = name ∧ d.Namespace = ns)) →
      ∃ off ∈ ds, ¬ (off.Name = name ∧ off.Namespace = ns) ∧
        scanSimilar name ns acc ds = Except.error (conflictMsg name off)
  | [], _, h => by simp at h
  | d :: ds, acc, h => by
    by_cases hd : d.Name = name ∧ d.Namespace = ns
    · obtain ⟨x, hx, hxf⟩ := h
      rcases List.mem_cons.mp hx with rfl | hx'
      · exact absurd hd hxf
      · obtain ⟨off, hoff, hofff, heq⟩ :=
          scanSimilar_conflict name ns ds (false, d) ⟨x, hx', hxf⟩
        exact ⟨off, List.mem_cons_of_mem _ hoff, hofff, by simpa [scanSimilar, hd] using heq⟩
    · exact ⟨d, List.mem_cons_self _ _, hd, by simp [scanSimilar, hd]⟩

/-- `keyMem` agrees with membership of the key among the map's keys. -/
theorem keyMem_iff {k : String} {m : List (String × Deployment)} :
    keyMem k m = true ↔ ∃ p ∈ m, p.1 = k := by
  simp [keyMem, List.any_eq_true]

/-- `addIfAbsent` never removes entries. -/
theorem mem_addIfAbsent {m : List (String × Deployment)} {p : String × Deployment}
    (d : Deployment) (h : p ∈ m) : p ∈ addIfAbsent m d := by
  unfold addIfAbsent
  split
  · exact h
  · exact List.mem_append_left _ h

/-- The label fold never removes entries. -/
theorem mem_foldl_addIfAbsent {p : String × Deployment} :
    ∀ (l : List Deployment) (m : List (String × Deployment)),
      p ∈ m → p ∈ l.foldl addIfAbsent m
  | [], _, h => h
  | d :: ds, m, h => by
    rw [List.foldl_cons]
    exact mem_foldl_addIfAbsent ds _ (mem_addIfAbsent d h)

/-- Invariant: each map entry's key is the dedup key of its value. -/
theorem keyinv_addIfAbsent {m : List (String × Deployment)}
    (hm : ∀ p ∈ m, p.1 = dedupKey p.2) (d : Deployment) :
    ∀ p ∈ addIfAbsent m d, p.1 = dedupKey p.2 := by
  intro p hp
  unfold addIfAbsent at hp
  split at hp
  · exact hm p hp
  · rcases List.mem_append.mp hp with h | h
    · exact hm p h
    · simp at h; subst h; rfl

/-- Invariant: the map's keys stay pairwise distinct. -/
theorem nodup_addIfAbsent {m : List (String × Deployment)}
    (h : (m.map Prod.fst).Nodup) (d : Deployment) :
    ((addIfAbsent m d).map Prod.fst).Nodup := by
  unfold addIfAbsent
  split
  · exact h
  · rename_i hk
    rw [List.map_append, List.nodup_append]
    refine ⟨h, by simp, ?_⟩
    intro x hx
    simp only [List.map_cons, List.map_nil, List.mem_singleton]
    intro hxd
    subst hxd
    rcases List.mem_map.mp hx with ⟨p, hp, hp1⟩
    exact hk (keyMem_iff.mpr ⟨p, hp, hp1⟩)

/-- Key invariant through the label fold. -/
theorem keyinv_foldl :
    ∀ (l : List Deployment) (m : List (String × Deployment)),
      (∀ p ∈ m, p.1 = dedupKey p.2) →
      ∀ p ∈ l.foldl addIfAbsent m, p.1 = dedupKey p.2
  | [], _, hm => hm
  | d :: ds, m, hm => by
    rw [List.foldl_cons]
    exact keyinv_foldl ds _ (keyinv_addIfAbsent hm d)

/-- Key distinctness through the label fold. -/
theorem nodup_foldl :
    ∀ (l : List Deployment) (m : List (String × Deployment)),
      (m.map Prod.fst).Nodup → ((l.foldl addIfAbsent m).map Prod.fst).Nodup
  | [], _, hm => hm
  | d :: ds, m, hm => by
    rw [List.foldl_cons]
    exact nodup_foldl ds _ (nodup_addIfAbsent hm d)

/-- Every label-discovered deployment with a fresh, pairwise-distinct key
ends up in the map under its own key. -/
theorem entry_mem_foldl :
    ∀ (l : List Deployment) (m : List (String × Deployment)),
      (∀ e ∈ l, keyMem (dedupKey e) m = false) →
      ((l.map dedupKey).Nodup) →
      ∀ e ∈ l, (dedupKey e, e) ∈ l.foldl addIfAbsent m := by
  intro l
  induction l with
  | nil => intro m _ _ e he; simp at he
  | cons d ds ih =>
    intro m hkeys hnod e he
    have hdk : keyMem (dedupKey d) m = false := hkeys d (List.mem_cons_self _ _)
    have hm' : addIfAbsent m d = m ++ [(dedupKey d, d)] := by
      unfold addIfAbsent; simp [hdk]
    rw [List.foldl_cons]
    rcases List.mem_cons.mp he with rfl | he'
    · apply mem_foldl_addIfAbsent
      rw [hm']
      exact List.mem_append_right _ (by simp)
    · have hnd : (List.map dedupKey ds).Nodup ∧ ∀ x ∈ ds, dedupKey x ≠ dedupKey d := by
        rw [List.map_cons, List.nodup_cons] at hnod
        exact ⟨hnod.2, fun x hx h => hnod.1 (h ▸ List.mem_map_of_mem dedupKey hx)⟩
      apply ih
      · intro x hx
        rw [hm']
        have hx0 : keyMem (dedupKey x) m = false := hkeys x (List.mem_cons_of_mem _ hx)
        have hxd : dedupKey x ≠ dedupKey d := hnd.2 x hx
        simp only [keyMem, List.any_append, List.any_cons, List.any_nil, Bool.or_eq_false_iff]
        constructor
        · simpa [keyMem] using hx0
        · simp [hxd.symm]
      · exact hnd.1
      · exact he'

/-- The image pass never removes entries. -/
theorem imagePass_mono (n : String) :
    ∀ (l : List Deployment) (m m' : List (String × Deployment)),
      imagePass n m l = some m' → ∀ p ∈ m, p ∈ m'
  | [], m, m', h => by
    unfold imagePass at h
    injection h with h
    subst h
    exact fun p hp => hp
  | d :: ds, m, m', h => by
    unfold imagePass at h
    cases hc : d.Containers.head? with
    | none => rw [hc] at h; cases h
    | some c0 =>
      rw [hc] at h
      intro p hp
      have hp' : p ∈ (if strContains c0.image n then addIfAbsent m d else m) := by
        split
        · exact mem_addIfAbsent d hp
        · exact hp
      exact imagePass_mono n ds _ m' h p hp'

/-- Key invariant through the image pass. -/
theorem imagePass_keyinv (n : String) :
    ∀ (l : List Deployment) (m m' : List (String × Deployment)),
      imagePass n m l = some m' → (∀ p ∈ m, p.1 = dedupKey p.2) →
      ∀ p ∈ m', p.1 = dedupKey p.2
  | [], m, m', h => by
    unfold imagePass at h
    injection h with h
    subst h
    exact fun hm => hm
  | d :: ds, m, m', h => by
    unfold imagePass at h
    cases hc : d.Containers.head? with
    | none => rw [hc] at h; cases h
    | some c0 =>
      rw [hc] at h
      intro hm
      have hm' : ∀ p ∈ (if strContains c0.image n then addIfAbsent m d else m),
          p.1 = dedupKey p.2 := by
        split
        · exact keyinv_addIfAbsent hm d
        · exact hm
      exact imagePass_keyinv n ds _ m' h hm'

/-- Key distinctness through the image pass. -/
theorem imagePass_nodup (n : String) :
    ∀ (l : List Deployment) (m m' : List (String × Deployment)),
      imagePass n m l = some m' → (m.map Prod.fst).Nodup → (m'.map Prod.fst).Nodup
  | [], m, m', h => by
    unfold imagePass at h
    injection h with h
    subst h
    exact fun hm => hm
  | d :: ds, m, m', h => by
    unfold imagePass at h
    cases hc : d.Containers.head? with
    | none => rw [hc] at h; cases h
    | some c0 =>
      rw [hc] at h
      intro hm
      have hm' : (((if strContains c0.image n then addIfAbsent m d else m)).map Prod.fst).Nodup := by
        split
        · exact nodup_addIfAbsent hm d
        · exact hm
      exact imagePass_nodup n ds _ m' h hm'

/-- The image pass completes whenever every listed deployment has at
least one container. -/
theorem imagePass_isSome (n : String) :
    ∀ (l : List Deployment) (m : List (String × Deployment)),
      (∀ d ∈ l, d.Containers ≠ []) → (imagePass n m l).isSome = true
  | [], m, _ => by simp [imagePass]
  | d :: ds, m, h => by
    cases hc : d.Containers with
    | nil => exact absurd hc (h d (List.mem_cons_self _ _))
    | cons c cs =>
      unfold imagePass
      rw [hc]
      exact imagePass_isSome n ds _ (fun x hx => h x (List.mem_cons_of_mem _ hx))

/-- Under the two map invariants, a value stored under its own key occurs
exactly once among the map's values. -/
theorem count_values_eq_one :
    ∀ (m : List (String × Deployment)),
      (∀ p ∈ m, p.1 = dedupKey p.2) → ((m.map Prod.fst).Nodup) →
      ∀ v, (dedupKey v, v) ∈ m → (m.map Prod.snd).count v = 1 := by
  intro m
  induction m with
  | nil => intro _ _ v hv; simp at hv
  | cons p rest ih =>
    intro hinv hnod v hv
    rw [List.map_cons, List.nodup_cons] at hnod
    rcases List.mem_cons.mp hv with heq | hv'
    · have hp : p = (dedupKey v, v) := heq.symm
      subst hp
      have hzero : v ∉ rest.map Prod.snd := by
        intro hmem
        rcases List.mem_map.mp hmem with ⟨q, hq, hq2⟩
        have hq1 : q.1 = dedupKey v := by rw [hinv q (List.mem_cons_of_mem _ hq), hq2]
        have hmem1 : q.1 ∈ rest.map Prod.fst := List.mem_map_of_mem Prod.fst hq
        rw [hq1] at hmem1
        exact hnod.1 hmem1
      rw [List.map_cons, List.count_cons_self, List.count_eq_zero.mpr hzero]
    · have hp2 : p.2 ≠ v := by
        intro h
        have h1 : p.1 = dedupKey v := by rw [hinv p (List.mem_cons_self _ _), h]
        have hmem1 : dedupKey v ∈ rest.map Prod.fst := by
          have := List.mem_map_of_mem Prod.fst hv'
          simpa using this
        rw [← h1] at hmem1
        exact hnod.1 hmem1
      rw [List.map_cons, List.count_cons_of_ne (by exact fun h => hp2 h.symm)]
      exact ih (fun q hq => hinv q (List.mem_cons_of_mem _ hq)) hnod.2 v hv'

/-! ## Claim theorems -/

/-- C1: whenever the discovered candidate set contains a deployment whose
(Name, Namespace) differs from the desired identity `(name, ns)`, the
pass returns the conflict error naming that candidate's namespace and
name, and issues no create and no update call. -/
theorem deployLogic_conflict_fail_fast (setRefErr createErr updateErr : Option String)
    (cands : List Deployment) (D : Deployment) (name ns : String)
    (h : ∃ c ∈ cands, ¬ (c.Name = name ∧ c.Namespace = ns)) :
    ∃ off ∈ cands, ¬ (off.Name = name ∧ off.Namespace = ns) ∧
      deployLogicCore setRefErr createErr updateErr cands D name ns =
        some (Except.error
          (conflictPre name ++ (off.Namespace ++ "/" ++ off.Name) ++ conflictPost name), []) := by
  obtain ⟨off, hm, hf, he⟩ := scanSimilar_conflict name ns cands (true, defaultDeployment) h
  exact ⟨off, hm, hf, by simp [deployLogicCore, he, conflictMsg]⟩

/-- C1 witness: a single foreign candidate triggers the conflict. -/
theorem deployLogic_conflict_fail_fast_witness :
    ∃ off ∈ [foreignDeployEx],
      ¬ (off.Name = "cert-manager-controller" ∧ off.Namespace = "certns") ∧
      deployLogicCore none none none [foreignDeployEx] defaultDeployment
          "cert-manager-controller" "certns" =
        some (Except.error
          (conflictPre "cert-manager-controller" ++ (off.Namespace ++ "/" ++ off.Name) ++
            conflictPost "cert-manager-controller"), []) :=
  deployLogic_conflict_fail_fast none none none [foreignDeployEx] defaultDeployment
    "cert-manager-controller" "certns" ⟨foreignDeployEx, by simp, by decide⟩

/-- C2 counterexample: with the namespace override unset (empty), the
controller args still carry the default cluster-resource-namespace flag
between the ACME-solver flag and the leader-election flag, so the args do
NOT end with `[acmeSolverFlag, leaderElectionFlag]`. -/
theorem controller_args_counterexample :
    (setupDeploy emptyCR controllerTemplateEx "tns").bind
        (fun d => d.Containers.head?.bind Container.args) =
      some (DefaultArgs ++
        ["--acme-http01-solver-image=" ++
           GetImageID ImageRegistry AcmesolverImageName ControllerImageVersion "",
         ResourceNS,
         "--leader-election-namespace=" ++ "tns"]) ∧
    List.isSuffixOf
      ["--acme-http01-solver-image=" ++
         GetImageID ImageRegistry AcmesolverImageName ControllerImageVersion "",
       "--leader-election-namespace=" ++ "tns"]
      (DefaultArgs ++
        ["--acme-http01-solver-image=" ++
           GetImageID ImageRegistry AcmesolverImageName ControllerImageVersion "",
         ResourceNS,
         "--leader-election-namespace=" ++ "tns"]) = false := by
  decide

/-- C2 (amended): the controller args are the template's default args
followed, in fixed order, by the ACME-solver image flag, then a
cluster-resource-namespace flag that is the input's override when set
and the template default `ResourceNS` otherwise (the flag is always
present), then the leader-election-namespace flag for the target
namespace. -/
theorem controller_args_order (i : CertManagerConfigSpec) (tmpl : Deployment) (ns : String)
    (c0 : Container) (rest : List Container)
    (hname : tmpl.Name = CertManagerControllerName)
    (hcont : tmpl.Containers = c0 :: rest) :
    (setupDeploy i tmpl ns).bind (fun d => d.Containers.head?.bind Container.args) =
      some (DefaultArgs ++
        ["--acme-http01-solver-image=" ++
           GetImageID (if i.ImageRegistry ≠ "" then trimTrailingSlash i.ImageRegistry
                       else ImageRegistry)
             AcmesolverImageName ControllerImageVersion i.ImagePostFixStr,
         (if i.ResourceNS ≠ "" then "--cluster-resource-namespace=" ++ i.ResourceNS
          else ResourceNS),
         "--leader-election-namespace=" ++ ns]) := by
  unfold setupDeploy
  rw [hcont]
  simp [hname]

/-- C2 witness: a set namespace override appears verbatim between the two
other appended flags. -/
theorem controller_args_order_witness :
    (setupDeploy { emptyCR with ResourceNS := "rns" } controllerTemplateEx "tns").bind
        (fun d => d.Containers.head?.bind Container.args) =
      some (DefaultArgs ++
        ["--acme-http01-solver-image=" ++
           GetImageID ImageRegistry AcmesolverImageName ControllerImageVersion "",
         "--cluster-resource-namespace=" ++ "rns",
         "--leader-election-namespace=" ++ "tns"]) :=
  controller_args_order { emptyCR with ResourceNS := "rns" } controllerTemplateEx "tns"
    baseContainerEx [] rfl rfl

/-- C3 counterexample: with the disable-host-network flag unset (nil),
the webhook spec comes out with `hostNetwork = false`, not the
network-enabled default the claim states. -/
theorem webhook_hostNetwork_counterexample :
    ¬ ((setupDeploy emptyCR webhookTemplateEx "wns").map Deployment.HostNetwork = some true) ∧
    (setupDeploy emptyCR webhookTemplateEx "wns").map Deployment.HostNetwork = some false := by
  decide

/-- C3 (amended): for the webhook-type workload, `hostNetwork = !disableFlag`
when the input's disable flag is set, and `hostNetwork = false` (the
`res.FalseVar` default, network-disabled) when it is unset. -/
theorem webhook_hostNetwork (i : CertManagerConfigSpec) (tmpl : Deployment) (ns : String)
    (c0 : Container) (rest : List Container) (sc : CSecCtx)
    (hname : tmpl.Name = CertManagerWebhookName)
    (hcont : tmpl.Containers = c0 :: rest)
    (hsc : c0.securityContext = some sc) :
    (setupDeploy i tmpl ns).map Deployment.HostNetwork =
      some (match i.DisableHostNetwork with | none => false | some d => !d) := by
  have h1 : CertManagerWebhookName ≠ CertManagerControllerName := by decide
  have h2 : CertManagerWebhookName ≠ CertManagerCainjectorName := by decide
  unfold setupDeploy
  rw [hcont]
  simp [h1, h2, hname, hsc, FalseVar]

/-- C3 witness: the unset-flag instance evaluates to `hostNetwork = false`. -/
theorem webhook_hostNetwork_witness :
    (setupDeploy emptyCR webhookTemplateEx "wns").map Deployment.HostNetwork = some false :=
  webhook_hostNetwork emptyCR webhookTemplateEx "wns"
    { baseContainerEx with securityContext := some ⟨none, none, none, none, none, none⟩ }
    [] ⟨none, none, none, none, none, none⟩ rfl rfl rfl

/-- C4 counterexample: two deployments that both have two (identical)
containers — the container counts are not both exactly 1, yet
`equalDeploys` declares them equal, because it only compares the counts
with each other and then looks at the first container. -/
theorem equalDeploys_two_containers_counterexample :
    twoContainerDeploy.Containers.length = 2 ∧
    equalDeploys twoContainerDeploy twoContainerDeploy = some true := by decide

/-- C4 (amended): `equalDeploys` requires the two container counts to be
equal — any pair with differing counts is reported a mismatch — but it
does not require the common count to be exactly 1. -/
theorem equalDeploys_count_mismatch (a b : Deployment)
    (h : a.Containers.length ≠ b.Containers.length) :
    equalDeploys a b = some false := by
  unfold equalDeploys
  split_ifs <;> simp_all

/-- C4 witness: 0 containers versus 2 containers is a mismatch. -/
theorem equalDeploys_count_mismatch_witness :
    equalDeploys defaultDeployment twoContainerDeploy = some false :=
  equalDeploys_count_mismatch defaultDeployment twoContainerDeploy (by decide)

/-- C5: reconciling a desired spec against a candidate set holding
exactly one deployment with the desired name and namespace that
`equalDeploys` reports equal returns success and issues zero write
calls (the external owner-reference stamping succeeding). -/
theorem deployLogic_idempotent (createErr updateErr : Option String)
    (c D : Deployment) (name ns : String)
    (h1 : c.Name = name) (h2 : c.Namespace = ns)
    (heq : equalDeploys D c = some true) :
    deployLogicCore none createErr updateErr [c] D name ns = some (Except.ok (), []) := by
  simp [deployLogicCore, scanSimilar, h1, h2, heq]

/-- C5 witness: an identical same-identity candidate yields a no-op. -/
theorem deployLogic_idempotent_witness :
    deployLogicCore none none none [sameDeployEx] sameDeployEx
      "cert-manager-controller" "certns" = some (Except.ok (), []) :=
  deployLogic_idempotent none none sameDeployEx sameDeployEx
    "cert-manager-controller" "certns" rfl rfl (by decide)

/-- C6 counterexample: quantities written `"1000m"` and `"1"` parse to
`⟨1000, -3⟩` and `⟨1, 0⟩`, whose `AsDec` strings are `"1.000"` and `"1"` —
so two deployments identical except for that cpu-limit notation compare
UNEQUAL, contrary to the claim. -/
theorem quantity_facet_counterexample :
    parseQuantity "1000m" = some ⟨1000, -3⟩ ∧ parseQuantity "1" = some ⟨1, 0⟩ ∧
    qDecString ⟨1000, -3⟩ = "1.000" ∧ qDecString ⟨1, 0⟩ = "1" ∧
    equalDeploys (deployWithCpuLimit ⟨1000, -3⟩) (deployWithCpuLimit ⟨1, 0⟩) = some false := by
  decide

/-- C6 (amended): the resource-quantity facet compares the `AsDec`
decimal strings, which preserve the parsed scale rather than normalizing
it: two deployments differing only in a cpu-limit quantity are equal iff
the two rendered strings coincide — so `"1000m"`/`"1"` are unequal,
while `"1.000"` (which parses identically to `"1000m"`) is equal to it. -/
theorem quantity_facet_scale_sensitive (q r : Quantity) :
    (equalDeploys (deployWithCpuLimit q) (deployWithCpuLimit r) = some true ↔
      qDecString q = qDecString r) ∧
    (parseQuantity "1.000" = some ⟨1000, -3⟩ ∧
     equalDeploys (deployWithCpuLimit ⟨1000, -3⟩) (deployWithCpuLimit ⟨1000, -3⟩) =
       some true) := by
  constructor
  · by_cases h : qDecString q = qDecString r
    · simp [equalDeploys, deployWithCpuLimit, baseContainerEx, defaultDeployment,
        equalContainers, checkArgs, checkProbe, checkSecCtx, checkResources, checkVols,
        checkEnvs, checkVolMnts, mapEqb, mapLookup, qGet, h]
    · simp [equalDeploys, deployWithCpuLimit, baseContainerEx, defaultDeployment,
        equalContainers, checkArgs, checkProbe, checkSecCtx, checkResources, checkVols,
        checkEnvs, checkVolMnts, mapEqb, mapLookup, qGet, h]
  · exact ⟨by decide, by decide⟩

/-- C6 witness: the distinct quantities `⟨1, 1⟩` (10 at scale 1) and
`⟨10, 0⟩` render to the same decimal string `"10"` and compare equal. -/
theorem quantity_facet_scale_sensitive_witness :
    equalDeploys (deployWithCpuLimit ⟨1, 1⟩) (deployWithCpuLimit ⟨10, 0⟩) = some true :=
  ((quantity_facet_scale_sensitive ⟨1, 1⟩ ⟨10, 0⟩).1).mpr (by decide)

/-- C7 counterexample: a registry override ending in two path separators,
`"reg//"`, has BOTH of them trimmed (the composed image uses `"reg"`),
not exactly one as the claim states (`"reg/"`). -/
theorem registry_trim_counterexample :
    trimOneTrailingSlashSpec "reg//" = "reg/" ∧
    (setupDeploy { emptyCR with ImageRegistry := "reg//" } controllerTemplateEx "tns").bind
        (fun d => d.Containers.head?.map Container.image) =
      some (GetImageID "reg" ControllerImageName ControllerImageVersion "") ∧
    GetImageID "reg" ControllerImageName ControllerImageVersion "" ≠
      GetImageID (trimOneTrailingSlashSpec "reg//") ControllerImageName
        ControllerImageVersion "" := by
  decide

/-- C7 (amended): a non-empty image-registry override is trimmed of ALL
trailing `'/'` characters (`strings.TrimRight`) before composing the
image reference; an empty override falls back to the untrimmed default
registry constant. -/
theorem registry_trimmed_all (i : CertManagerConfigSpec) (tmpl : Deployment) (ns : String)
    (c0 : Container) (rest : List Container)
    (hname : tmpl.Name = CertManagerControllerName)
    (hcont : tmpl.Containers = c0 :: rest) :
    (setupDeploy i tmpl ns).bind (fun d => d.Containers.head?.map Container.image) =
      some (GetImageID
        (if i.ImageRegistry ≠ "" then trimTrailingSlash i.ImageRegistry else ImageRegistry)
        ControllerImageName ControllerImageVersion i.ImagePostFixStr) := by
  unfold setupDeploy
  rw [hcont]
  simp [hname]

/-- C7 witness: one trailing separator is trimmed as before. -/
theorem registry_trimmed_all_witness :
    (setupDeploy { emptyCR with ImageRegistry := "myreg.io/" } controllerTemplateEx "tns").bind
        (fun d => d.Containers.head?.map Container.image) =
      some (GetImageID (trimTrailingSlash "myreg.io/") ControllerImageName
        ControllerImageVersion "") :=
  registry_trimmed_all { emptyCR with ImageRegistry := "myreg.io/" } controllerTemplateEx "tns"
    baseContainerEx [] rfl rfl

/-- C8: over a well-formed cluster state (pairwise-distinct `name/namespace`
keys among the label-discovered deployments, no zero-container
deployment in the list-all result), a deployment found by the label
query and also matched by the image-substring query appears exactly once
in the finder's result, and any label-discovered deployment sharing its
name but in a different namespace is likewise kept, exactly once. -/
theorem deployFinder_dedup (labelItems allItems : List Deployment) (imageName : String)
    (d : Deployment)
    (hnodup : (labelItems.map dedupKey).Nodup)
    (hall : ∀ e ∈ allItems, e.Containers ≠ [])
    (hlab : d ∈ labelItems)
    (_hboth : d ∈ allItems)
    (_himg : ∃ c0, d.Containers.head? = some c0 ∧ strContains c0.image imageName = true) :
    ∃ out, deployFinder (Except.ok labelItems) (Except.ok allItems) imageName = some out ∧
      out.count d = 1 ∧
      ∀ d' ∈ labelItems, d'.Name = d.Name → d'.Namespace ≠ d.Namespace →
        out.count d' = 1 := by
  set m1 : List (String × Deployment) := labelItems.foldl addIfAbsent [] with hm1
  have hinv1 : ∀ p ∈ m1, p.1 = dedupKey p.2 :=
    keyinv_foldl labelItems [] (by intro p hp; simp at hp)
  have hnod1 : (m1.map Prod.fst).Nodup := nodup_foldl labelItems [] (by simp)
  have hmem1 : ∀ e ∈ labelItems, (dedupKey e, e) ∈ m1 :=
    entry_mem_foldl labelItems [] (by intro e _; rfl) hnodup
  obtain ⟨m2, hm2⟩ := Option.isSome_iff_exists.mp (imagePass_isSome imageName allItems m1 hall)
  have hinv2 : ∀ p ∈ m2, p.1 = dedupKey p.2 :=
    imagePass_keyinv imageName allItems m1 m2 hm2 hinv1
  have hnod2 : (m2.map Prod.fst).Nodup := imagePass_nodup imageName allItems m1 m2 hm2 hnod1
  have hmono : ∀ p ∈ m1, p ∈ m2 := imagePass_mono imageName allItems m1 m2 hm2
  refine ⟨m2.map Prod.snd, ?_, ?_, ?_⟩
  · simp only [deployFinder]
    rw [← hm1, hm2]
    rfl
  · exact count_values_eq_one m2 hinv2 hnod2 d (hmono _ (hmem1 d hlab))
  · intro d' hd' _ _
    exact count_values_eq_one m2 hinv2 hnod2 d' (hmono _ (hmem1 d' hd'))

/-- C8 witness: a deployment found by both signals is returned once. -/
theorem deployFinder_dedup_witness :
    ∃ out, deployFinder (Except.ok [sameDeployEx]) (Except.ok [sameDeployEx])
        "icp-cert-manager" = some out ∧
      out.count sameDeployEx = 1 ∧
      ∀ d' ∈ [sameDeployEx], d'.Name = sameDeployEx.Name →
        d'.Namespace ≠ sameDeployEx.Namespace → out.count d' = 1 :=
  deployFinder_dedup [sameDeployEx] [sameDeployEx] "icp-cert-manager" sameDeployEx
    (by decide) (by decide) (by decide) (by decide)
    ⟨baseContainerEx, rfl, by decide⟩

/-- C9: discovery and comparison are total only under a
non-empty-containers precondition — a zero-container deployment makes
`deployFinder`'s image pass and `equalDeploys`'s container indexing hit
the out-of-bounds branch (`none`); when every deployment in the list-all
result has a container, `deployFinder` completes, and when both compared
deployments have a first container, any abort of `equalDeploys` comes
from inside `equalContainers` (a nil probe `Exec`), not from the
container indexing. -/
theorem containers_nonempty_precondition :
    ((deployFinder (Except.ok []) (Except.ok [defaultDeployment]) ControllerImageName = none) ∧
     (equalDeploys defaultDeployment defaultDeployment = none)) ∧
    (∀ (lq : Except String (List Deployment)) (allItems : List Deployment) (n : String),
      (∀ d ∈ allItems, d.Containers ≠ []) →
      (deployFinder lq (Except.ok allItems) n).isSome = true) ∧
    (∀ (a b : Deployment) (fc sc : Container),
      a.Containers.head? = some fc → b.Containers.head? = some sc →
      equalDeploys a b = none → equalContainers fc sc = none) := by
  refine ⟨by decide, ?_, ?_⟩
  · intro lq allItems n h
    simp only [deployFinder]
    cases lq with
    | error e =>
      have := imagePass_isSome n allItems [] h
      rcases Option.isSome_iff_exists.mp this with ⟨m2, hm2⟩
      simp [hm2]
    | ok items =>
      have := imagePass_isSome n allItems (items.foldl addIfAbsent []) h
      rcases Option.isSome_iff_exists.mp this with ⟨m2, hm2⟩
      simp [hm2]
  · intro a b fc sc hfa hfb h
    unfold equalDeploys at h
    replace h := ite_some_false_none h
    replace h := ite_some_false_none h
    replace h := ite_some_false_none h
    replace h := ite_some_false_none h
    replace h := ite_some_false_none h
    replace h := ite_some_false_none h
    replace h := ite_some_false_none h
    replace h := ite_some_false_none h
    replace h := ite_some_false_none h
    replace h := ite_some_false_none h
    rw [hfa, hfb] at h
    exact h

/-- C9 witness: with one-container deployments the finder completes even
when the label query fails. -/
theorem containers_nonempty_precondition_witness :
    (deployFinder (Except.error "boom") (Except.ok [sameDeployEx])
      ControllerImageName).isSome = true :=
  containers_nonempty_precondition.2.1 (Except.error "boom") [sameDeployEx]
    ControllerImageName (by decide)

/-- C10: `removeDeploy` swallows a not-found delete failure (returns
success) and passes every other delete failure through unchanged. -/
theorem removeDeploy_notFound_swallowed
    (deleteFn : String → String → Except DeleteError Unit) (name nspace : String) :
    (∀ m, deleteFn nspace name = Except.error (DeleteError.notFound m) →
      removeDeploy deleteFn name nspace = none) ∧
    (∀ e, deleteFn nspace name = Except.error e → isNotFound e = false →
      removeDeploy deleteFn name nspace = some e) := by
  constructor
  · intro m h; simp [removeDeploy, h, isNotFound]
  · intro e h hnf; simp [removeDeploy, h, hnf]

/-- C10 witness: a not-found delete failure is reported as success. -/
theorem removeDeploy_notFound_swallowed_witness :
    removeDeploy (fun _ _ => Except.error (DeleteError.notFound "gone"))
      "cert-manager-controller" "certns" = none :=
  (removeDeploy_notFound_swallowed (fun _ _ => Except.error (DeleteError.notFound "gone"))
    "cert-manager-controller" "certns").1 "gone" rfl

end CertManagerOp
